import Mathlib

/-!
Formal model of the clue-analytics backend (four Express variants:
`server.js` with a Firebase realtime database plus SendGrid,
`src/unnamed/part_000` with SQLite and no email, `src/unnamed/part_001`
with SQLite plus SendGrid, and `src/unnamed/part_002` with only the
feed proxy).  Handlers are embedded as pure functions over explicit
state; outbound effects (database write failure, email send failure,
the network) are oracle parameters.
-/

namespace ClueAnalytics

/-! ## JSON field values and JS truthiness

Request bodies are JSON; a handler reads a field that may be absent or
hold a non-string value.  `strField` mirrors the falsy-or-not-a-string
guard at the top of each handler: it yields the string only when the
field is present, is a string, and is truthy (a JS string is falsy
exactly when it is empty). -/

inductive JVal : Type where
  | jstr (s : String)
  | jnum (n : Int)
  | jbool (b : Bool)
  | jnull
  | jarr
  | jobj
  deriving DecidableEq, Repr

def strField : Option JVal → Option String
  | some (.jstr s) => if s = "" then none else some s
  | _ => none

/-! ## The email shape check

All subscribe/contact handlers test the email against the regular
expression `^[^\s@]+@[^\s@]+\.[^\s@]+$`.  `emailRegexMatch` is its
meaning: the whole string decomposes as a nonempty run of
non-whitespace non-`@` characters, an `@`, a nonempty run, a dot and a
final nonempty run.  `emailRegexTest` is an executable matcher for the
same language, proved equivalent in `emailRegexTest_iff`. -/

def isEmailChar (c : Char) : Bool := !c.isWhitespace && c != '@'

def emailRegexMatch (s : String) : Prop :=
  ∃ l a b : List Char,
    s.data = l ++ '@' :: (a ++ '.' :: b) ∧
    l ≠ [] ∧ a ≠ [] ∧ b ≠ [] ∧
    (∀ c ∈ l, isEmailChar c = true) ∧
    (∀ c ∈ a, isEmailChar c = true) ∧
    (∀ c ∈ b, isEmailChar c = true)

def dotThenMore : List Char → Bool
  | [] => false
  | c :: rest => (c == '.' && !rest.isEmpty) || dotThenMore rest

def hasInteriorDot : List Char → Bool
  | [] => false
  | _ :: rest => dotThenMore rest

def emailRegexTest (s : String) : Bool :=
  match s.data.dropWhile (fun c => c != '@') with
  | c :: d =>
      c == '@' &&
      !(s.data.takeWhile (fun c => c != '@')).isEmpty &&
      (s.data.takeWhile (fun c => c != '@')).all isEmailChar &&
      d.all isEmailChar && hasInteriorDot d
  | [] => false

lemma isEmailChar_iff (c : Char) :
    isEmailChar c = true ↔ ¬ c.isWhitespace = true ∧ c ≠ '@' := by
  simp [isEmailChar]

lemma dotThenMore_iff (cs : List Char) :
    dotThenMore cs = true ↔ ∃ a b, cs = a ++ '.' :: b ∧ b ≠ [] := by
  induction cs with
  | nil =>
      simp only [dotThenMore]
      constructor
      · intro h; exact absurd h (by simp)
      · rintro ⟨a, b, h, -⟩
        exact absurd h.symm (by simp)
  | cons c rest ih =>
      simp only [dotThenMore, Bool.or_eq_true, Bool.and_eq_true, beq_iff_eq,
        Bool.not_eq_true', List.isEmpty_eq_false, ih]
      constructor
      · rintro (⟨rfl, hne⟩ | ⟨a, b, rfl, hb⟩)
        · exact ⟨[], rest, rfl, hne⟩
        · exact ⟨c :: a, b, rfl, hb⟩
      · rintro ⟨a, b, heq, hb⟩
        cases a with
        | nil =>
            simp only [List.nil_append, List.cons.injEq] at heq
            exact Or.inl ⟨heq.1, heq.2 ▸ hb⟩
        | cons x a' =>
            simp only [List.cons_append, List.cons.injEq] at heq
            exact Or.inr ⟨a', b, heq.2, hb⟩

lemma takeWhile_append_cons {p : Char → Bool} {l₁ l₂ : List Char} {c : Char}
    (h : ∀ x ∈ l₁, p x = true) (hc : p c = false) :
    (l₁ ++ c :: l₂).takeWhile p = l₁ := by
  induction l₁ with
  | nil => simp [List.takeWhile_cons, hc]
  | cons a t ih =>
      have ha : p a = true := h a (by simp)
      simp only [List.cons_append, List.takeWhile_cons, ha, if_true]
      rw [ih (fun x hx => h x (by simp [hx]))]

lemma dropWhile_append_cons {p : Char → Bool} {l₁ l₂ : List Char} {c : Char}
    (h : ∀ x ∈ l₁, p x = true) (hc : p c = false) :
    (l₁ ++ c :: l₂).dropWhile p = c :: l₂ := by
  induction l₁ with
  | nil => simp [List.dropWhile_cons, hc]
  | cons a t ih =>
      have ha : p a = true := h a (by simp)
      simp only [List.cons_append, List.dropWhile_cons, ha, if_true]
      exact ih (fun x hx => h x (by simp [hx]))

theorem emailRegexTest_iff (s : String) :
    emailRegexTest s = true ↔ emailRegexMatch s := by
  constructor
  · intro h
    rcases hdrop : s.data.dropWhile (fun c => c != '@') with _ | ⟨c, d⟩
    · rw [emailRegexTest, hdrop] at h
      exact absurd h (by simp)
    · rw [emailRegexTest, hdrop] at h
      simp only [Bool.and_eq_true, beq_iff_eq, Bool.not_eq_true',
        List.isEmpty_eq_false, List.all_eq_true] at h
      obtain ⟨⟨⟨⟨hc, hne⟩, hlall⟩, hdall⟩, hdot⟩ := h
      subst hc
      set L := s.data.takeWhile (fun c => c != '@') with hL
      have hsplit : s.data = L ++ '@' :: d := by
        conv_lhs => rw [← List.takeWhile_append_dropWhile (fun c => c != '@') s.data]
        rw [hdrop]
      cases hd : d with
      | nil => rw [hd] at hdot; exact absurd hdot (by simp [hasInteriorDot])
      | cons x rest =>
          rw [hd] at hdot
          have hrest : dotThenMore rest = true := hdot
          obtain ⟨a', b, hab, hb⟩ := (dotThenMore_iff rest).mp hrest
          refine ⟨L, x :: a', b, ?_, hne, by simp, hb, hlall, ?_, ?_⟩
          · rw [hsplit, hd, hab]; simp
          · intro ch hch
            apply hdall
            rw [hd, hab]
            simp only [List.mem_cons, List.mem_append] at hch ⊢
            tauto
          · intro ch hch
            apply hdall
            rw [hd, hab]
            simp only [List.mem_cons, List.mem_append]
            tauto
  · rintro ⟨l, a, b, hs, hl, ha, hb, hlc, hac, hbc⟩
    have hpl : ∀ x ∈ l, (x != '@') = true := by
      intro x hx
      have := (isEmailChar_iff x).mp (hlc x hx)
      simp [this.2]
    have hpc : (('@' : Char) != '@') = false := by simp
    have htake : s.data.takeWhile (fun c => c != '@') = l := by
      rw [hs]; exact takeWhile_append_cons hpl hpc
    have hdropw : s.data.dropWhile (fun c => c != '@') = '@' :: (a ++ '.' :: b) := by
      rw [hs]; exact dropWhile_append_cons hpl hpc
    have h2 : l.isEmpty = false := by simp [hl]
    have h3 : l.all isEmailChar = true := List.all_eq_true.mpr hlc
    have hdall : (a ++ '.' :: b).all isEmailChar = true := by
      simp only [List.all_append, List.all_cons, Bool.and_eq_true, List.all_eq_true]
      exact ⟨hac, by decide, hbc⟩
    have hdot : hasInteriorDot (a ++ '.' :: b) = true := by
      cases a with
      | nil => exact absurd rfl ha
      | cons x a' =>
          show dotThenMore (a' ++ '.' :: b) = true
          exact (dotThenMore_iff _).mpr ⟨a', b, rfl, hb⟩
    rw [emailRegexTest, hdropw]
    simp [htake, h2, h3, hdall, hdot]

/-! ## Stores

The SQLite variants (`part_000`, `part_001`) keep two tables with
autoincrement ids and store-assigned timestamps; the `UNIQUE`
constraint on `subscribers.email` is modelled by the presence check in
the insert.  The Firebase variant (`server.js`) pushes records under
monotonically increasing push keys with no uniqueness constraint.
Timestamps are naturals (the handler passes the current time `now`). -/

structure SubRow where
  id : Nat
  email : String
  subscribed_at : Nat
  deriving DecidableEq, Repr

structure MsgRow where
  id : Nat
  name : String
  email : String
  message : String
  sent_at : Nat
  deriving DecidableEq, Repr

structure SqlState where
  subscribers : List SubRow
  messages : List MsgRow
  nextSubId : Nat
  nextMsgId : Nat
  deriving DecidableEq, Repr

structure FireSub where
  key : Nat
  email : String
  subscribed_at : Nat
  deriving DecidableEq, Repr

structure FireMsg where
  key : Nat
  name : String
  email : String
  message : String
  sent_at : Nat
  deriving DecidableEq, Repr

structure FireState where
  subscribers : List FireSub
  messages : List FireMsg
  nextKey : Nat
  deriving DecidableEq, Repr

def insertSub (st : SqlState) (email : String) (now : Nat) : SqlState :=
  { st with
    subscribers := st.subscribers ++ [⟨st.nextSubId, email, now⟩]
    nextSubId := st.nextSubId + 1 }

def insertMsg (st : SqlState) (name email message : String) (now : Nat) : SqlState :=
  { st with
    messages := st.messages ++ [⟨st.nextMsgId, name, email, message, now⟩]
    nextMsgId := st.nextMsgId + 1 }

def pushSub (st : FireState) (email : String) (now : Nat) : FireState :=
  { st with
    subscribers := st.subscribers ++ [⟨st.nextKey, email, now⟩]
    nextKey := st.nextKey + 1 }

def pushMsg (st : FireState) (name email message : String) (now : Nat) : FireState :=
  { st with
    messages := st.messages ++ [⟨st.nextKey, name, email, message, now⟩]
    nextKey := st.nextKey + 1 }

/-! ## Write handlers

An HTTP response to a POST is a status code and a message string (the
handlers answer a JSON object holding either an error string or a
message string; the status code
distinguishes the two).  `ioFail`/`dbFail` is an oracle for an
environmental failure of the store write, `emailFail` for a failure of
the notification email send. -/

structure PostResp where
  status : Nat
  body : String
  deriving DecidableEq, Repr

/-- Model of the subscribe endpoint of `part_000` (SQLite, no email).
Validation, then the SQL insert of the email; an
insert hitting the `UNIQUE` constraint (the email is already present)
answers 409, an environmental insert failure 500, success 200 with the
row appended. -/
def subscribeSql (st : SqlState) (now : Nat) (emailField : Option JVal)
    (ioFail : Bool) : PostResp × SqlState :=
  match strField emailField with
  | none => (⟨400, "Email is required and must be a string"⟩, st)
  | some email =>
    if !emailRegexTest email then (⟨400, "Invalid email address"⟩, st)
    else if st.subscribers.any (fun r => r.email == email) then
      (⟨409, "Email already subscribed"⟩, st)
    else if ioFail then (⟨500, "Failed to subscribe"⟩, st)
    else (⟨200, "Successfully subscribed!"⟩, insertSub st email now)

/-- Model of the subscribe endpoint of `part_001` (SQLite + SendGrid).
Identical to `subscribeSql` except that on a successful insert a
confirmation email is dispatched fire-and-forget
(a dangling promise whose rejection is only logged): the third component records
that a send was attempted, and neither the response nor the state
depends on the send outcome `emailFail`. -/
def subscribeSqlMail (st : SqlState) (now : Nat) (emailField : Option JVal)
    (ioFail : Bool) (emailFail : Bool) : PostResp × SqlState × Bool :=
  match strField emailField with
  | none => (⟨400, "Email is required and must be a string"⟩, st, false)
  | some email =>
    if !emailRegexTest email then (⟨400, "Invalid email address"⟩, st, false)
    else if st.subscribers.any (fun r => r.email == email) then
      (⟨409, "Email already subscribed"⟩, st, false)
    else if ioFail then (⟨500, "Failed to subscribe"⟩, st, false)
    else (⟨200, "Successfully subscribed!"⟩, insertSub st email now, true)

/-- Model of the subscribe endpoint of `server.js` (Firebase + SendGrid).
The Firebase push of the subscriber record stores the record unconditionally (no
uniqueness constraint), and the confirmation email is awaited inside
the same try block, so a send failure after a successful write falls
into the catch and answers 500 while the pushed record remains. -/
def subscribeFire (st : FireState) (now : Nat) (emailField : Option JVal)
    (dbFail : Bool) (emailFail : Bool) : PostResp × FireState :=
  match strField emailField with
  | none => (⟨400, "Email is required and must be a string"⟩, st)
  | some email =>
    if !emailRegexTest email then (⟨400, "Invalid email address"⟩, st)
    else if dbFail then (⟨500, "Failed to subscribe"⟩, st)
    else
      let st' := pushSub st email now
      if emailFail then (⟨500, "Failed to subscribe"⟩, st')
      else (⟨200, "Successfully subscribed!"⟩, st')

/-- Model of the contact endpoint of `part_000` (SQLite, no email). -/
def contactSql (st : SqlState) (now : Nat)
    (nameField emailField messageField : Option JVal)
    (ioFail : Bool) : PostResp × SqlState :=
  match strField nameField with
  | none => (⟨400, "Name is required and must be a string"⟩, st)
  | some name =>
  match strField emailField with
  | none => (⟨400, "Email is required and must be a string"⟩, st)
  | some email =>
  match strField messageField with
  | none => (⟨400, "Message is required and must be a string"⟩, st)
  | some message =>
    if !emailRegexTest email then (⟨400, "Invalid email address"⟩, st)
    else if ioFail then (⟨500, "Failed to send message"⟩, st)
    else (⟨200, "Message sent successfully!"⟩, insertMsg st name email message now)

/-- Model of the contact endpoint of `part_001` (SQLite + SendGrid);
the admin notification email is fire-and-forget as in
`subscribeSqlMail`. -/
def contactSqlMail (st : SqlState) (now : Nat)
    (nameField emailField messageField : Option JVal)
    (ioFail : Bool) (emailFail : Bool) : PostResp × SqlState × Bool :=
  match strField nameField with
  | none => (⟨400, "Name is required and must be a string"⟩, st, false)
  | some name =>
  match strField emailField with
  | none => (⟨400, "Email is required and must be a string"⟩, st, false)
  | some email =>
  match strField messageField with
  | none => (⟨400, "Message is required and must be a string"⟩, st, false)
  | some message =>
    if !emailRegexTest email then (⟨400, "Invalid email address"⟩, st, false)
    else if ioFail then (⟨500, "Failed to send message"⟩, st, false)
    else (⟨200, "Message sent successfully!"⟩, insertMsg st name email message now, true)

/-- Model of the contact endpoint of `server.js` (Firebase + SendGrid);
the admin notification email is awaited inside the try block, as in
`subscribeFire`. -/
def contactFire (st : FireState) (now : Nat)
    (nameField emailField messageField : Option JVal)
    (dbFail : Bool) (emailFail : Bool) : PostResp × FireState :=
  match strField nameField with
  | none => (⟨400, "Name is required and must be a string"⟩, st)
  | some name =>
  match strField emailField with
  | none => (⟨400, "Email is required and must be a string"⟩, st)
  | some email =>
  match strField messageField with
  | none => (⟨400, "Message is required and must be a string"⟩, st)
  | some message =>
    if !emailRegexTest email then (⟨400, "Invalid email address"⟩, st)
    else if dbFail then (⟨500, "Failed to send message"⟩, st)
    else
      let st' := pushMsg st name email message now
      if emailFail then (⟨500, "Failed to send message"⟩, st')
      else (⟨200, "Message sent successfully!"⟩, st')

/-! ## Basic authentication and the admin read endpoints

Credentials are an optional username/password pair; `authOk` is the
check of the authenticate middleware (user must be the fixed name
admin and the password must equal the server-held API key).  The
SQLite listings run a SELECT with ORDER BY the store-assigned
timestamp DESC, modelled by `List.mergeSort` with the
newer-or-equal-first comparison; the Firebase listings map the
snapshot entries in key order — the stored order — with no sort. -/

structure Creds where
  user : String
  pass : String
  deriving DecidableEq, Repr

def authOk (creds : Option Creds) (apiKey : String) : Bool :=
  match creds with
  | none => false
  | some u => u.user == "admin" && u.pass == apiKey

inductive ListBody (α : Type) : Type where
  | err (msg : String)
  | rows (l : List α)
  deriving DecidableEq, Repr

structure ListResp (α : Type) where
  status : Nat
  body : ListBody α
  deriving DecidableEq, Repr

def subNewerFirst (a b : SubRow) : Bool := b.subscribed_at ≤ a.subscribed_at

def msgNewerFirst (a b : MsgRow) : Bool := b.sent_at ≤ a.sent_at

/-- Model of the subscribers listing of `part_000`/`part_001`. -/
def getSubscribersSql (st : SqlState) (creds : Option Creds) (apiKey : String) :
    ListResp SubRow :=
  if authOk creds apiKey then
    ⟨200, .rows (st.subscribers.mergeSort subNewerFirst)⟩
  else ⟨401, .err "Unauthorized"⟩

/-- Model of the messages listing of `part_000`/`part_001`. -/
def getMessagesSql (st : SqlState) (creds : Option Creds) (apiKey : String) :
    ListResp MsgRow :=
  if authOk creds apiKey then
    ⟨200, .rows (st.messages.mergeSort msgNewerFirst)⟩
  else ⟨401, .err "Unauthorized"⟩

/-- Model of the subscribers listing of `server.js`: the snapshot
entries are mapped in push-key order with no reordering, so the rows
come back exactly as stored (oldest first). -/
def getSubscribersFire (st : FireState) (creds : Option Creds) (apiKey : String) :
    ListResp FireSub :=
  if authOk creds apiKey then ⟨200, .rows st.subscribers⟩
  else ⟨401, .err "Unauthorized"⟩

/-- Model of the messages listing of `server.js`. -/
def getMessagesFire (st : FireState) (creds : Option Creds) (apiKey : String) :
    ListResp FireMsg :=
  if authOk creds apiKey then ⟨200, .rows st.messages⟩
  else ⟨401, .err "Unauthorized"⟩

/-! ## Feed proxy and its time-to-live cache

The NodeCache instance is created with a standard time to live of 3600
seconds.  A cache is a list of key/value/expiry entries; `cacheGet`
returns the value stored under the exact key when the entry has not
expired, `cacheSet` stores a value with expiry `now + 3600` replacing
any previous entry for that key.  `fetchFeed` models the fetch-feed
handler, identical in `part_000`, `part_001`, `part_002` and
`server.js`: the hit test is the JS truthiness of the cached value, so
an absent entry and a cached empty string both take the miss path.
`net` is the network oracle for this one request (`none` is an
outbound failure) and `calls` counts outbound attempts. -/

def cacheTTL : Nat := 3600

structure CacheEntry where
  key : String
  val : String
  expiry : Nat
  deriving DecidableEq, Repr

abbrev Cache : Type := List CacheEntry

def cacheGet (c : Cache) (now : Nat) (k : String) : Option String :=
  (List.find? (fun e => e.key == k && Nat.blt now e.expiry) c).map CacheEntry.val

def cacheSet (c : Cache) (now : Nat) (k v : String) : Cache :=
  ⟨k, v, now + cacheTTL⟩ :: List.filter (fun e => e.key != k) c

inductive FeedBody : Type where
  | err (msg : String)
  | payload (s : String)
  deriving DecidableEq, Repr

structure FeedResult where
  status : Nat
  body : FeedBody
  cache : Cache
  calls : Nat
  deriving DecidableEq, Repr

/-- Model of the fetch-feed endpoint.  A missing or empty url query
parameter is falsy and answers 400 before any cache or network access;
a truthy cached payload is served with no outbound call; otherwise one
outbound request is made — on success the payload is cached under the
exact url and returned, on failure 500 is returned and nothing is
cached. -/
def fetchFeed (c : Cache) (now : Nat) (urlParam : Option String)
    (net : String → Option String) : FeedResult :=
  match urlParam with
  | none => ⟨400, .err "URL parameter is required", c, 0⟩
  | some url =>
    if url = "" then ⟨400, .err "URL parameter is required", c, 0⟩
    else
      let miss : FeedResult :=
        match net url with
        | some d => ⟨200, .payload d, cacheSet c now url d, 1⟩
        | none => ⟨500, .err "Failed to fetch feed", c, 1⟩
      match cacheGet c now url with
      | some v => if v = "" then miss else ⟨200, .payload v, c, 0⟩
      | none => miss

/-! ## Rate limiting

Modelled from the spec: the express-rate-limit middleware is a
third-party dependency whose implementation is not part of the
repository sources; its behaviour is taken from the spec — a per-route
sliding window in which the subscription route allows at most 10 and
the contact route at most 5 requests per 15-minute window per client
key, an over-limit request being answered with the throttling status
429 and the fixed configured message.  A request at time `t` is
allowed when fewer than `maxReq` recorded hits of the same key fall in
the window reaching back `windowMs` from `t`; every request is
recorded.  The `keyGenerator` configured in the sources is `keyOf`:
the first comma-separated entry of the x-forwarded-for header,
trimmed, when the header is present, else the connection address. -/

def windowMs : Nat := 15 * 60 * 1000

def splitOnChar (sep : Char) : List Char → List (List Char)
  | [] => [[]]
  | c :: rest =>
    match splitOnChar sep rest with
    | [] => [[c]]
    | h :: t => if c == sep then [] :: h :: t else (c :: h) :: t

def jsTrim (cs : List Char) : List Char :=
  ((cs.dropWhile Char.isWhitespace).reverse.dropWhile Char.isWhitespace).reverse

def keyOf (forwardedFor : Option String) (ip : String) : String :=
  match forwardedFor with
  | some h => ⟨((splitOnChar ',' h.data).map jsTrim).headD ip.data⟩
  | none => ip

def countRecent (hits : List Nat) (t : Nat) : Nat :=
  (hits.filter (fun u => u ≤ t && t < u + windowMs)).length

def limiterAllows (hits : List Nat) (t : Nat) (maxReq : Nat) : Bool :=
  countRecent hits t < maxReq

def runTrace (hits : List Nat) (ts : List Nat) (maxReq : Nat) : List Bool :=
  match ts with
  | [] => []
  | t :: rest => limiterAllows hits t maxReq :: runTrace (t :: hits) rest maxReq

def subscribeLimitMsg : String :=
  "Too many subscription attempts from this IP, please try again later."

def contactLimitMsg : String :=
  "Too many contact messages from this IP, please try again later."

/-- Model of the rate-limited subscription route of `part_000`: the
limiter middleware runs before the handler, so an over-limit request
is rejected without the body being inspected or the store touched. -/
def rateLimitedSubscribe (hits : List Nat) (t : Nat) (st : SqlState) (now : Nat)
    (emailField : Option JVal) (ioFail : Bool) : PostResp × SqlState :=
  if limiterAllows hits t 10 then subscribeSql st now emailField ioFail
  else (⟨429, subscribeLimitMsg⟩, st)

/-- Model of the rate-limited contact route of `part_000`. -/
def rateLimitedContact (hits : List Nat) (t : Nat) (st : SqlState) (now : Nat)
    (nameField emailField messageField : Option JVal) (ioFail : Bool) :
    PostResp × SqlState :=
  if limiterAllows hits t 5 then
    contactSql st now nameField emailField messageField ioFail
  else (⟨429, contactLimitMsg⟩, st)

/-! ## Auxiliary lemmas -/

lemma strField_eq_some {v : Option JVal} {s : String} (h : strField v = some s) :
    v = some (.jstr s) ∧ s ≠ "" := by
  match v with
  | none => simp [strField] at h
  | some (.jstr s₀) =>
      simp only [strField] at h
      split at h
      · exact absurd h (by simp)
      · simp only [Option.some.injEq] at h
        subst h
        exact ⟨rfl, by assumption⟩
  | some (.jnum n) => simp [strField] at h
  | some (.jbool b) => simp [strField] at h
  | some .jnull => simp [strField] at h
  | some .jarr => simp [strField] at h
  | some .jobj => simp [strField] at h

lemma authOk_eq_false {creds : Option Creds} {apiKey : String}
    (h : creds ≠ some ⟨"admin", apiKey⟩) : authOk creds apiKey = false := by
  cases creds with
  | none => rfl
  | some c =>
      cases c with
      | mk u p =>
          rw [authOk, Bool.eq_false_iff]
          intro htrue
          simp only [Bool.and_eq_true, beq_iff_eq] at htrue
          exact h (by rw [htrue.1, htrue.2])

lemma authOk_admin (apiKey : String) : authOk (some ⟨"admin", apiKey⟩) apiKey = true := by
  simp [authOk]

lemma runTrace_count_le (maxReq : Nat) :
    ∀ (ts hits : List Nat) (T : Nat),
      List.Pairwise (· ≤ ·) ts →
      (∀ t ∈ ts, T ≤ t ∧ t < T + windowMs) →
      (∀ u ∈ hits, T ≤ u ∧ ∀ t ∈ ts, u ≤ t) →
      (runTrace hits ts maxReq).count true + min hits.length maxReq ≤ maxReq := by
  intro ts
  induction ts with
  | nil =>
      intro hits T _ _ _
      simp only [runTrace, List.count_nil, Nat.zero_add]
      exact Nat.min_le_right _ _
  | cons t rest ih =>
      intro hits T hpw hwin hhits
      have hrecent : countRecent hits t = hits.length := by
        unfold countRecent
        rw [List.filter_eq_self.mpr]
        intro u hu
        have h1 := (hhits u hu).1
        have h2 := (hhits u hu).2 t (by simp)
        have h3 := (hwin t (by simp)).2
        simp only [Bool.and_eq_true, decide_eq_true_eq]
        omega
      have hpw' := List.pairwise_cons.mp hpw
      have hwin' : ∀ t' ∈ rest, T ≤ t' ∧ t' < T + windowMs :=
        fun t' ht' => hwin t' (by simp [ht'])
      have hhits' : ∀ u ∈ t :: hits, T ≤ u ∧ ∀ t' ∈ rest, u ≤ t' := by
        intro u hu
        rcases List.mem_cons.mp hu with rfl | hu'
        · exact ⟨(hwin u (by simp)).1, fun t' ht' => hpw'.1 t' ht'⟩
        · exact ⟨(hhits u hu').1, fun t' ht' => (hhits u hu').2 t' (by simp [ht'])⟩
      have ihh := ih (t :: hits) T hpw'.2 hwin' hhits'
      simp only [runTrace]
      rcases Nat.lt_or_ge hits.length maxReq with hlt | hge
      · have hallow : limiterAllows hits t maxReq = true := by
          simp [limiterAllows, hrecent, hlt]
        rw [hallow, List.count_cons]
        simp only [List.length_cons] at ihh
        rw [Nat.min_eq_left (by omega)] at ihh
        rw [Nat.min_eq_left (by omega)]
        simp only [beq_self_eq_true, if_true]
        omega
      · have hallow : limiterAllows hits t maxReq = false := by
          simp [limiterAllows, hrecent]
          omega
        rw [hallow, List.count_cons]
        simp only [List.length_cons] at ihh
        rw [Nat.min_eq_right (by omega)] at ihh
        rw [Nat.min_eq_right (by omega)]
        have hz : (if (false == true) = true then 1 else 0) = 0 := by decide
        rw [hz]
        omega

/-! ## Spec-side predicates for the email shape claim

`specEmailShape` transcribes the shape the spec describes: a
non-whitespace local part, a single separating at-sign, and a
non-whitespace domain containing a dot.  `amendedEmailShape`
strengthens only the dot condition: the dot must have at least one
character on each side of it within the domain. -/

def specEmailShape (s : String) : Prop :=
  ∃ l d : List Char,
    s.data = l ++ '@' :: d ∧ l ≠ [] ∧ d ≠ [] ∧
    (∀ c ∈ l, ¬ c.isWhitespace = true) ∧
    (∀ c ∈ d, ¬ c.isWhitespace = true) ∧
    '@' ∉ l ∧ '@' ∉ d ∧ '.' ∈ d

def amendedEmailShape (s : String) : Prop :=
  ∃ l d : List Char,
    s.data = l ++ '@' :: d ∧ l ≠ [] ∧ d ≠ [] ∧
    (∀ c ∈ l, ¬ c.isWhitespace = true) ∧
    (∀ c ∈ d, ¬ c.isWhitespace = true) ∧
    '@' ∉ l ∧ '@' ∉ d ∧
    ∃ a b : List Char, d = a ++ '.' :: b ∧ a ≠ [] ∧ b ≠ []

/-- C7: the claim states the regex passes exactly the strings with a
non-whitespace local part, a single separating at-sign and a
non-whitespace domain containing a dot.  The string a@.b has that
shape (domain .b contains a dot) yet the regex rejects it, since the
regex requires a character of the domain before the dot. -/
theorem email_shape_c7_counterexample :
    specEmailShape "a@.b" ∧ ¬ emailRegexMatch "a@.b" := by
  constructor
  · exact ⟨['a'], ['.', 'b'], by decide, by decide, by decide, by decide, by decide,
      by decide, by decide, by decide⟩
  · intro hm
    have := (emailRegexTest_iff "a@.b").mpr hm
    exact absurd this (by decide)

/-- C7 amended: an email string passes the validation of the handlers
if and only if it has a non-whitespace local part, a single separating
at-sign, and a non-whitespace domain containing a dot with at least
one domain character on each side of it. -/
theorem email_shape_c7_amended (s : String) :
    emailRegexMatch s ↔ amendedEmailShape s := by
  constructor
  · rintro ⟨l, a, b, hs, hl, ha, hb, hlc, hac, hbc⟩
    have hmem : ∀ c ∈ a ++ '.' :: b, ¬ c.isWhitespace = true ∧ c ≠ '@' := by
      intro c hc
      rcases List.mem_append.mp hc with h1 | h1
      · exact (isEmailChar_iff c).mp (hac c h1)
      · rcases List.mem_cons.mp h1 with rfl | h2
        · exact ⟨by decide, by decide⟩
        · exact (isEmailChar_iff c).mp (hbc c h2)
    refine ⟨l, a ++ '.' :: b, hs, hl, by simp, ?_, ?_, ?_, ?_, a, b, rfl, ha, hb⟩
    · exact fun c hc => ((isEmailChar_iff c).mp (hlc c hc)).1
    · exact fun c hc => (hmem c hc).1
    · intro hat
      exact ((isEmailChar_iff '@').mp (hlc '@' hat)).2 rfl
    · intro hat
      exact (hmem '@' hat).2 rfl
  · rintro ⟨l, d, hs, hl, hd, hlws, hdws, hlat, hdat, a, b, rfl, ha, hb⟩
    refine ⟨l, a, b, hs, hl, ha, hb, ?_, ?_, ?_⟩
    · intro c hc
      refine (isEmailChar_iff c).mpr ⟨hlws c hc, ?_⟩
      rintro rfl
      exact hlat hc
    · intro c hc
      have hcd : c ∈ a ++ '.' :: b := List.mem_append.mpr (Or.inl hc)
      refine (isEmailChar_iff c).mpr ⟨hdws c hcd, ?_⟩
      rintro rfl
      exact hdat hcd
    · intro c hc
      have hcd : c ∈ a ++ '.' :: b :=
        List.mem_append.mpr (Or.inr (List.mem_cons.mpr (Or.inr hc)))
      refine (isEmailChar_iff c).mpr ⟨hdws c hcd, ?_⟩
      rintro rfl
      exact hdat hcd

/-- C10: an authenticated listing over an empty store answers 200 with
an empty array in every storage variant. -/
theorem empty_listings_c10 (apiKey : String) (nSub nMsg nKey : Nat) :
    getSubscribersSql ⟨[], [], nSub, nMsg⟩ (some ⟨"admin", apiKey⟩) apiKey
      = ⟨200, .rows []⟩ ∧
    getMessagesSql ⟨[], [], nSub, nMsg⟩ (some ⟨"admin", apiKey⟩) apiKey
      = ⟨200, .rows []⟩ ∧
    getSubscribersFire ⟨[], [], nKey⟩ (some ⟨"admin", apiKey⟩) apiKey
      = ⟨200, .rows []⟩ ∧
    getMessagesFire ⟨[], [], nKey⟩ (some ⟨"admin", apiKey⟩) apiKey
      = ⟨200, .rows []⟩ := by
  refine ⟨?_, ?_, ?_, ?_⟩ <;>
    simp [getSubscribersSql, getMessagesSql, getSubscribersFire, getMessagesFire,
      authOk_admin, List.mergeSort_nil]

/-- C6: a listing request whose credentials are not exactly the
username admin with the server-held key — absent credentials included —
answers 401 with an error body that is the same for every store
content, so no stored subscriber or message data is revealed, in both
storage variants. -/
theorem auth_c6 (apiKey : String) (creds : Option Creds)
    (h : creds ≠ some ⟨"admin", apiKey⟩) (st : SqlState) (fst : FireState) :
    getSubscribersSql st creds apiKey = ⟨401, .err "Unauthorized"⟩ ∧
    getMessagesSql st creds apiKey = ⟨401, .err "Unauthorized"⟩ ∧
    getSubscribersFire fst creds apiKey = ⟨401, .err "Unauthorized"⟩ ∧
    getMessagesFire fst creds apiKey = ⟨401, .err "Unauthorized"⟩ := by
  have hf := authOk_eq_false h
  refine ⟨?_, ?_, ?_, ?_⟩ <;>
    simp [getSubscribersSql, getMessagesSql, getSubscribersFire, getMessagesFire, hf]

/-- C6 witness: concrete rejected request (wrong user on a populated
store). -/
theorem auth_c6_witness :
    getSubscribersSql ⟨[⟨0, "a@b.c", 0⟩], [], 1, 0⟩ (some ⟨"root", "secret"⟩) "secret"
      = ⟨401, .err "Unauthorized"⟩ ∧
    getMessagesSql ⟨[⟨0, "a@b.c", 0⟩], [], 1, 0⟩ (some ⟨"root", "secret"⟩) "secret"
      = ⟨401, .err "Unauthorized"⟩ ∧
    getSubscribersFire ⟨[⟨0, "a@b.c", 0⟩], [], 1⟩ (some ⟨"root", "secret"⟩) "secret"
      = ⟨401, .err "Unauthorized"⟩ ∧
    getMessagesFire ⟨[⟨0, "a@b.c", 0⟩], [], 1⟩ (some ⟨"root", "secret"⟩) "secret"
      = ⟨401, .err "Unauthorized"⟩ :=
  auth_c6 "secret" (some ⟨"root", "secret"⟩) (by decide) ⟨[⟨0, "a@b.c", 0⟩], [], 1, 0⟩
    ⟨[⟨0, "a@b.c", 0⟩], [], 1⟩

/-- C1: the claim asserts uniqueness in every storage variant, but the
Firebase variant of `server.js` pushes the subscriber record with no
uniqueness check: subscribing a@b.c twice from the empty store answers
200 both times and leaves two records with that email, where the claim
requires a 409 and no duplicate. -/
theorem subscribe_unique_c1_counterexample :
    (subscribeFire ⟨[], [], 0⟩ 0 (some (.jstr "a@b.c")) false false).1.status = 200 ∧
    (subscribeFire ((subscribeFire ⟨[], [], 0⟩ 0 (some (.jstr "a@b.c")) false false).2) 1
        (some (.jstr "a@b.c")) false false).1.status = 200 ∧
    ((subscribeFire ((subscribeFire ⟨[], [], 0⟩ 0 (some (.jstr "a@b.c")) false false).2) 1
        (some (.jstr "a@b.c")) false false).2.subscribers.filter
      (fun r => r.email == "a@b.c")).length = 2 := by
  decide

/-- C1 amended: in the two SQLite variants a valid email not yet
stored subscribes exactly once — 200 and exactly one appended record —
a repeat subscribe of the same email answers 409 and leaves the store
unchanged, and an environmental write failure answers 500, distinct
from the 409 conflict; the variant with email notification behaves
identically on response and store.  The Firebase variant enforces no
uniqueness and stores duplicates (see the counterexample). -/
theorem subscribe_unique_c1_amended (st : SqlState) (now : Nat)
    (emailField : Option JVal) (ioFail : Bool) (email : String)
    (hstr : strField emailField = some email)
    (hre : emailRegexTest email = true) :
    (st.subscribers.any (fun r => r.email == email) = true →
      subscribeSql st now emailField ioFail = (⟨409, "Email already subscribed"⟩, st)) ∧
    (st.subscribers.any (fun r => r.email == email) = false → ioFail = false →
      subscribeSql st now emailField ioFail =
        (⟨200, "Successfully subscribed!"⟩, insertSub st email now) ∧
      (subscribeSql st now emailField ioFail).2.subscribers =
        st.subscribers ++ [⟨st.nextSubId, email, now⟩] ∧
      (∀ now2 ioFail2, subscribeSql (insertSub st email now) now2 emailField ioFail2 =
        (⟨409, "Email already subscribed"⟩, insertSub st email now))) ∧
    (st.subscribers.any (fun r => r.email == email) = false → ioFail = true →
      subscribeSql st now emailField ioFail = (⟨500, "Failed to subscribe"⟩, st)) ∧
    (∀ emailFail, ((subscribeSqlMail st now emailField ioFail emailFail).1,
        (subscribeSqlMail st now emailField ioFail emailFail).2.1) =
      subscribeSql st now emailField ioFail) := by
  have hdup : (insertSub st email now).subscribers.any (fun r => r.email == email)
      = true := by
    simp [insertSub, List.any_append]
  refine ⟨?_, ?_, ?_, ?_⟩
  · intro hany
    simp [subscribeSql, hstr, hre, hany]
  · intro hany hio
    subst hio
    refine ⟨?_, ?_, ?_⟩
    · simp [subscribeSql, hstr, hre, hany]
    · simp [subscribeSql, hstr, hre, hany, insertSub]
    · intro now2 ioFail2
      simp [subscribeSql, hstr, hre, hdup]
  · intro hany hio
    subst hio
    simp [subscribeSql, hstr, hre, hany]
  · intro emailFail
    rcases hany : st.subscribers.any (fun r => r.email == email) with _ | _ <;>
      rcases ioFail with _ | _ <;>
        simp [subscribeSql, subscribeSqlMail, hstr, hre, hany]

/-- C1 witness: concrete fresh subscribe then repeat subscribe on the
SQLite model. -/
theorem subscribe_unique_c1_witness :
    subscribeSql ⟨[], [], 0, 0⟩ 7 (some (.jstr "a@b.c")) false =
      (⟨200, "Successfully subscribed!"⟩, insertSub ⟨[], [], 0, 0⟩ "a@b.c" 7) ∧
    subscribeSql (insertSub ⟨[], [], 0, 0⟩ "a@b.c" 7) 9 (some (.jstr "a@b.c")) false =
      (⟨409, "Email already subscribed"⟩, insertSub ⟨[], [], 0, 0⟩ "a@b.c" 7) := by
  have h := subscribe_unique_c1_amended ⟨[], [], 0, 0⟩ 7 (some (.jstr "a@b.c")) false
    "a@b.c" (by decide) (by decide)
  have h2 := (h.2.1 (by decide) rfl)
  exact ⟨h2.1, h2.2.2 9 false⟩

/-- C2: the claim asserts that in both email-enabled variants a failed
notification send never changes the HTTP outcome of a successful
write.  In the Firebase variant of `server.js` the send is awaited
inside the same try block as the write: with the write succeeded and
the send failing, the handler answers 500 — not the 200 determined for
the write — while the pushed record remains stored. -/
theorem email_failure_c2_counterexample :
    subscribeFire ⟨[], [], 0⟩ 0 (some (.jstr "a@b.c")) false true =
      (⟨500, "Failed to subscribe"⟩, ⟨[⟨0, "a@b.c", 0⟩], [], 1⟩) ∧
    contactFire ⟨[], [], 0⟩ 0 (some (.jstr "A")) (some (.jstr "a@b.c"))
        (some (.jstr "hi")) false true =
      (⟨500, "Failed to send message"⟩, ⟨[], [⟨0, "A", "a@b.c", "hi", 0⟩], 1⟩) := by
  constructor <;> decide

/-- C2 amended: in the SQLite email-enabled variant the notification
send is fire-and-forget — after a successful write the handler answers
200 with the record stored and a send attempted, for either send
outcome.  In the Firebase variant a send failure after a successful
write escalates to a 500 response, the stored record remaining. -/
theorem email_failure_c2_amended (st : SqlState) (fst : FireState) (now : Nat)
    (nameField emailField messageField : Option JVal)
    (name email message : String) (emailFail : Bool)
    (hname : strField nameField = some name)
    (hstr : strField emailField = some email)
    (hmsg : strField messageField = some message)
    (hre : emailRegexTest email = true) :
    (st.subscribers.any (fun r => r.email == email) = false →
      subscribeSqlMail st now emailField false emailFail =
        (⟨200, "Successfully subscribed!"⟩, insertSub st email now, true)) ∧
    contactSqlMail st now nameField emailField messageField false emailFail =
      (⟨200, "Message sent successfully!"⟩, insertMsg st name email message now, true) ∧
    subscribeFire fst now emailField false true =
      (⟨500, "Failed to subscribe"⟩, pushSub fst email now) ∧
    contactFire fst now nameField emailField messageField false true =
      (⟨500, "Failed to send message"⟩, pushMsg fst name email message now) := by
  refine ⟨?_, ?_, ?_, ?_⟩
  · intro hany
    simp [subscribeSqlMail, hstr, hre, hany]
  · simp [contactSqlMail, hname, hstr, hmsg, hre]
  · simp [subscribeFire, hstr, hre]
  · simp [contactFire, hname, hstr, hmsg, hre]

/-- C2 witness: concrete successful writes with a failing send in the
SQLite email variant. -/
theorem email_failure_c2_witness :
    subscribeSqlMail ⟨[], [], 0, 0⟩ 3 (some (.jstr "a@b.c")) false true =
      (⟨200, "Successfully subscribed!"⟩, insertSub ⟨[], [], 0, 0⟩ "a@b.c" 3, true) ∧
    contactSqlMail ⟨[], [], 0, 0⟩ 3 (some (.jstr "A")) (some (.jstr "a@b.c"))
        (some (.jstr "hi")) false true =
      (⟨200, "Message sent successfully!"⟩,
        insertMsg ⟨[], [], 0, 0⟩ "A" "a@b.c" "hi" 3, true) := by
  have h := email_failure_c2_amended ⟨[], [], 0, 0⟩ ⟨[], [], 0⟩ 3
    (some (.jstr "A")) (some (.jstr "a@b.c")) (some (.jstr "hi"))
    "A" "a@b.c" "hi" true (by decide) (by decide) (by decide) (by decide)
  exact ⟨h.1 (by decide), h.2.1⟩

/-- C3: the claim asserts descending-timestamp order in every storage
variant, but the Firebase listings of `server.js` map the snapshot
entries in push-key order with no sort: on a store holding an older
record before a newer one, the authenticated listing returns the older
record first, not newest first. -/
theorem listings_order_c3_counterexample :
    getSubscribersFire ⟨[⟨0, "a@b.c", 0⟩, ⟨1, "c@d.e", 5⟩], [], 2⟩
        (some ⟨"admin", "k"⟩) "k"
      = ⟨200, .rows [⟨0, "a@b.c", 0⟩, ⟨1, "c@d.e", 5⟩]⟩ ∧
    ¬ List.Sorted (fun a b : FireSub => b.subscribed_at ≤ a.subscribed_at)
        [⟨0, "a@b.c", 0⟩, ⟨1, "c@d.e", 5⟩] := by
  constructor
  · decide
  · decide

/-- C3 amended: in the SQLite variants the authenticated listings
return the full stored collection sorted by descending store-assigned
timestamp (records of equal timestamp in unspecified relative order);
the Firebase variant returns the collection in push-key (insertion)
order with no reordering. -/
theorem listings_order_c3_amended :
    (∀ (st : SqlState) (k : String), ∃ rows,
      getSubscribersSql st (some ⟨"admin", k⟩) k = ⟨200, .rows rows⟩ ∧
      rows.Perm st.subscribers ∧
      List.Sorted (fun a b => b.subscribed_at ≤ a.subscribed_at) rows) ∧
    (∀ (st : SqlState) (k : String), ∃ rows,
      getMessagesSql st (some ⟨"admin", k⟩) k = ⟨200, .rows rows⟩ ∧
      rows.Perm st.messages ∧
      List.Sorted (fun a b => b.sent_at ≤ a.sent_at) rows) ∧
    (∀ (fst : FireState) (k : String),
      getSubscribersFire fst (some ⟨"admin", k⟩) k = ⟨200, .rows fst.subscribers⟩ ∧
      getMessagesFire fst (some ⟨"admin", k⟩) k = ⟨200, .rows fst.messages⟩) := by
  refine ⟨?_, ?_, ?_⟩
  · intro st k
    refine ⟨st.subscribers.mergeSort subNewerFirst, ?_, ?_, ?_⟩
    · simp [getSubscribersSql, authOk_admin]
    · exact List.mergeSort_perm st.subscribers subNewerFirst
    · have hs := @List.sorted_mergeSort SubRow subNewerFirst
        (fun a b c hab hbc => by
          simp only [subNewerFirst, decide_eq_true_eq] at *; omega)
        (fun a b => by
          simp only [subNewerFirst, Bool.or_eq_true, decide_eq_true_eq]; omega)
        st.subscribers
      exact hs.imp (fun h => by simpa [subNewerFirst] using h)
  · intro st k
    refine ⟨st.messages.mergeSort msgNewerFirst, ?_, ?_, ?_⟩
    · simp [getMessagesSql, authOk_admin]
    · exact List.mergeSort_perm st.messages msgNewerFirst
    · have hs := @List.sorted_mergeSort MsgRow msgNewerFirst
        (fun a b c hab hbc => by
          simp only [msgNewerFirst, decide_eq_true_eq] at *; omega)
        (fun a b => by
          simp only [msgNewerFirst, Bool.or_eq_true, decide_eq_true_eq]; omega)
        st.messages
      exact hs.imp (fun h => by simpa [msgNewerFirst] using h)
  · intro fst k
    exact ⟨by simp [getSubscribersFire, authOk_admin],
      by simp [getMessagesFire, authOk_admin]⟩

/-- C4: the claim asserts that a fetch within the time to live after a
successful fetch of the same url returns the identical payload with no
second outbound call, for every url.  The hit test is the JS
truthiness of the cached value, so a cached empty payload is treated
as a miss: after fetching a feed whose body is the empty string, a
repeat request one second later still finds the entry in the cache yet
makes a second outbound call. -/
theorem feed_cache_c4_counterexample :
    fetchFeed [] 0 (some "u") (fun _ => some "") =
      ⟨200, .payload "", [⟨"u", "", 3600⟩], 1⟩ ∧
    cacheGet [⟨"u", "", 3600⟩] 1 "u" = some "" ∧
    (fetchFeed [⟨"u", "", 3600⟩] 1 (some "u") (fun _ => some "")).calls = 1 := by
  refine ⟨?_, ?_, ?_⟩ <;> decide

/-- C4 amended: for every url and every non-empty first payload the
claim holds — a repeat fetch-feed call with the exact same url within
the time to live returns the payload of the first response and makes
no outbound call, and on a miss the fetched payload is stored under
the exact url key and returned; a cached empty payload is falsy in the
hit test and is fetched again. -/
theorem feed_cache_c4_amended :
    (∀ (c : Cache) (now : Nat) (url : String) (net : String → Option String)
        (p : String), url ≠ "" → cacheGet c now url = some p → p ≠ "" →
      fetchFeed c now (some url) net = ⟨200, .payload p, c, 0⟩) ∧
    (∀ (c : Cache) (now : Nat) (url : String) (net : String → Option String)
        (p : String), url ≠ "" → cacheGet c now url = none → net url = some p →
      fetchFeed c now (some url) net = ⟨200, .payload p, cacheSet c now url p, 1⟩) ∧
    (∀ (c : Cache) (now t2 : Nat) (url p : String), t2 < now + cacheTTL →
      cacheGet (cacheSet c now url p) t2 url = some p) ∧
    (∀ (c : Cache) (now t2 : Nat) (url : String)
        (net net2 : String → Option String) (p : String),
      url ≠ "" → cacheGet c now url = none → net url = some p → p ≠ "" →
      t2 < now + cacheTTL →
      fetchFeed ((fetchFeed c now (some url) net).cache) t2 (some url) net2 =
        ⟨200, .payload p, (fetchFeed c now (some url) net).cache, 0⟩) := by
  have hhit : ∀ (c : Cache) (now : Nat) (url : String)
      (net : String → Option String) (p : String),
      url ≠ "" → cacheGet c now url = some p → p ≠ "" →
      fetchFeed c now (some url) net = ⟨200, .payload p, c, 0⟩ := by
    intro c now url net p hurl hget hp
    simp [fetchFeed, hurl, hget, hp]
  have hmiss : ∀ (c : Cache) (now : Nat) (url : String)
      (net : String → Option String) (p : String),
      url ≠ "" → cacheGet c now url = none → net url = some p →
      fetchFeed c now (some url) net = ⟨200, .payload p, cacheSet c now url p, 1⟩ := by
    intro c now url net p hurl hget hnet
    simp [fetchFeed, hurl, hget, hnet]
  have hgetset : ∀ (c : Cache) (now t2 : Nat) (url p : String),
      t2 < now + cacheTTL → cacheGet (cacheSet c now url p) t2 url = some p := by
    intro c now t2 url p ht
    unfold cacheGet cacheSet
    have hfind : List.find? (fun e => e.key == url && Nat.blt t2 e.expiry)
        (⟨url, p, now + cacheTTL⟩ :: List.filter (fun e => e.key != url) c)
        = some ⟨url, p, now + cacheTTL⟩ := by
      apply List.find?_cons_of_pos
      simp [Nat.blt_eq, ht]
    rw [hfind]
    rfl
  refine ⟨hhit, hmiss, hgetset, ?_⟩
  intro c now t2 url net net2 p hurl hget hnet hp ht
  rw [hmiss c now url net p hurl hget hnet]
  exact hhit _ t2 url net2 p hurl (hgetset c now t2 url p ht) hp

/-- C4 witness: concrete miss, store, and within-ttl hit with a
different network oracle on the second call. -/
theorem feed_cache_c4_witness :
    fetchFeed ((fetchFeed [] 0 (some "u") (fun _ => some "x")).cache) 5 (some "u")
        (fun _ => none) =
      ⟨200, .payload "x", (fetchFeed [] 0 (some "u") (fun _ => some "x")).cache, 0⟩ :=
  feed_cache_c4_amended.2.2.2 [] 0 5 "u" (fun _ => some "x") (fun _ => none) "x"
    (by decide) (by decide) rfl (by decide) (by decide)

/-- C5: a subscribe or contact request with a missing or non-string
field, or an email failing the shape check, answers 400 and performs
no store write, in every variant. -/
theorem invalid_input_c5 (st : SqlState) (fst : FireState) (now : Nat)
    (nameF emailF msgF : Option JVal) (ioFail dbFail emailFail : Bool) :
    ((∀ s, emailF = some (.jstr s) → emailRegexTest s = false) →
      (subscribeSql st now emailF ioFail).1.status = 400 ∧
      (subscribeSql st now emailF ioFail).2 = st ∧
      (subscribeSqlMail st now emailF ioFail emailFail).1.status = 400 ∧
      (subscribeSqlMail st now emailF ioFail emailFail).2.1 = st ∧
      (subscribeFire fst now emailF dbFail emailFail).1.status = 400 ∧
      (subscribeFire fst now emailF dbFail emailFail).2 = fst) ∧
    ((strField nameF = none ∨ strField msgF = none ∨
        (∀ s, emailF = some (.jstr s) → emailRegexTest s = false)) →
      (contactSql st now nameF emailF msgF ioFail).1.status = 400 ∧
      (contactSql st now nameF emailF msgF ioFail).2 = st ∧
      (contactSqlMail st now nameF emailF msgF ioFail emailFail).1.status = 400 ∧
      (contactSqlMail st now nameF emailF msgF ioFail emailFail).2.1 = st ∧
      (contactFire fst now nameF emailF msgF dbFail emailFail).1.status = 400 ∧
      (contactFire fst now nameF emailF msgF dbFail emailFail).2 = fst) := by
  constructor
  · intro hE
    rcases h : strField emailF with _ | s
    · simp [subscribeSql, subscribeSqlMail, subscribeFire, h]
    · obtain ⟨hv, -⟩ := strField_eq_some h
      have hf := hE s hv
      simp [subscribeSql, subscribeSqlMail, subscribeFire, h, hf]
  · intro hC
    rcases hn : strField nameF with _ | name
    · simp [contactSql, contactSqlMail, contactFire, hn]
    · rcases he : strField emailF with _ | email
      · simp [contactSql, contactSqlMail, contactFire, hn, he]
      · rcases hm : strField msgF with _ | message
        · simp [contactSql, contactSqlMail, contactFire, hn, he, hm]
        · rcases hC with h1 | h1 | h1
          · rw [hn] at h1; cases h1
          · rw [hm] at h1; cases h1
          · obtain ⟨hv, -⟩ := strField_eq_some he
            have hf := h1 email hv
            simp [contactSql, contactSqlMail, contactFire, hn, he, hm, hf]

/-- C5 witness: malformed email on subscribe, missing name on contact,
on the plain SQLite variant. -/
theorem invalid_input_c5_witness :
    (subscribeSql ⟨[], [], 0, 0⟩ 0 (some (.jstr "not-an-email")) false).1.status = 400 ∧
    (subscribeSql ⟨[], [], 0, 0⟩ 0 (some (.jstr "not-an-email")) false).2 = ⟨[], [], 0, 0⟩ ∧
    (contactSql ⟨[], [], 0, 0⟩ 0 none (some (.jstr "a@b.c")) (some (.jstr "hi"))
        false).1.status = 400 ∧
    (contactSql ⟨[], [], 0, 0⟩ 0 none (some (.jstr "a@b.c")) (some (.jstr "hi"))
        false).2 = ⟨[], [], 0, 0⟩ := by
  have h := invalid_input_c5 ⟨[], [], 0, 0⟩ ⟨[], [], 0⟩ 0 none
    (some (.jstr "not-an-email")) (some (.jstr "hi")) false false false
  have hs := h.1 (fun s hs => by cases hs; decide)
  have hc := (invalid_input_c5 ⟨[], [], 0, 0⟩ ⟨[], [], 0⟩ 0 none
    (some (.jstr "a@b.c")) (some (.jstr "hi")) false false false).2 (Or.inl rfl)
  exact ⟨hs.1, hs.2.1, hc.1, hc.2.1⟩

/-- C8: a fetch-feed request without a url answers 400 with no
outbound call; an outbound fetch failure answers 500 with nothing
cached for that url; and every request makes at most one outbound
attempt. -/
theorem feed_errors_c8 :
    (∀ (c : Cache) (now : Nat) (net : String → Option String),
      fetchFeed c now none net = ⟨400, .err "URL parameter is required", c, 0⟩) ∧
    (∀ (c : Cache) (now : Nat) (url : String) (net : String → Option String),
      url ≠ "" → cacheGet c now url = none → net url = none →
      fetchFeed c now (some url) net = ⟨500, .err "Failed to fetch feed", c, 1⟩) ∧
    (∀ (c : Cache) (now : Nat) (u : Option String) (net : String → Option String),
      (fetchFeed c now u net).calls ≤ 1) := by
  refine ⟨?_, ?_, ?_⟩
  · intro c now net
    rfl
  · intro c now url net hurl hget hnet
    simp [fetchFeed, hurl, hget, hnet]
  · intro c now u net
    rcases u with _ | url
    · simp [fetchFeed]
    · by_cases hurl : url = ""
      · simp [fetchFeed, hurl]
      · rcases hget : cacheGet c now url with _ | v
        · rcases hnet : net url with _ | d <;> simp [fetchFeed, hurl, hget, hnet]
        · by_cases hv : v = ""
          · rcases hnet : net url with _ | d <;>
              simp [fetchFeed, hurl, hget, hnet, hv]
          · simp [fetchFeed, hurl, hget, hv]

/-- C8 witness: concrete failed outbound fetch of an uncached url. -/
theorem feed_errors_c8_witness :
    fetchFeed [] 0 (some "u") (fun _ => none) =
      ⟨500, .err "Failed to fetch feed", [], 1⟩ :=
  feed_errors_c8.2.1 [] 0 "u" (fun _ => none) (by decide) rfl rfl

/-- C9: a request arriving with 10 (subscription) or 5 (contact)
recorded hits of its client key inside the 15-minute window is
rejected with status 429 and the fixed configured message, whatever
the body and without touching the store; over any run of requests
lying in a common 15-minute window at most 10 subscription and at most
5 contact requests are allowed; and the client key is the first
trimmed entry of the x-forwarded-for header when present, else the
connection address. -/
theorem rate_limit_c9 :
    (∀ (hits : List Nat) (t : Nat) (st : SqlState) (now : Nat)
        (emailField : Option JVal) (ioFail : Bool), 10 ≤ countRecent hits t →
      rateLimitedSubscribe hits t st now emailField ioFail =
        (⟨429, subscribeLimitMsg⟩, st)) ∧
    (∀ (hits : List Nat) (t : Nat) (st : SqlState) (now : Nat)
        (nameF emailF msgF : Option JVal) (ioFail : Bool), 5 ≤ countRecent hits t →
      rateLimitedContact hits t st now nameF emailF msgF ioFail =
        (⟨429, contactLimitMsg⟩, st)) ∧
    (∀ (ts : List Nat) (T : Nat), List.Pairwise (· ≤ ·) ts →
      (∀ t ∈ ts, T ≤ t ∧ t < T + windowMs) →
      (runTrace [] ts 10).count true ≤ 10 ∧ (runTrace [] ts 5).count true ≤ 5) ∧
    (keyOf (some "1.2.3.4, 5.6.7.8") "9.9.9.9" = "1.2.3.4" ∧
      keyOf none "9.9.9.9" = "9.9.9.9") := by
  refine ⟨?_, ?_, ?_, ?_⟩
  · intro hits t st now emailField ioFail h
    have hfalse : limiterAllows hits t 10 = false := by
      simp only [limiterAllows, decide_eq_false_iff_not]
      omega
    simp [rateLimitedSubscribe, hfalse]
  · intro hits t st now nameF emailF msgF ioFail h
    have hfalse : limiterAllows hits t 5 = false := by
      simp only [limiterAllows, decide_eq_false_iff_not]
      omega
    simp [rateLimitedContact, hfalse]
  · intro ts T hpw hwin
    have h10 := runTrace_count_le 10 ts [] T hpw hwin (by simp)
    have h5 := runTrace_count_le 5 ts [] T hpw hwin (by simp)
    simp only [List.length_nil, Nat.zero_min, Nat.add_zero] at h10 h5
    exact ⟨h10, h5⟩
  · exact ⟨by decide, rfl⟩

/-- C9 witness: the 11th subscription request and the 6th contact
request of a key inside one window are rejected even with bodies that
would otherwise be handled, and eleven same-window requests yield at
most ten allowed. -/
theorem rate_limit_c9_witness :
    rateLimitedSubscribe (List.replicate 10 0) 0 ⟨[], [], 0, 0⟩ 0
        (some (.jstr "a@b.c")) false = (⟨429, subscribeLimitMsg⟩, ⟨[], [], 0, 0⟩) ∧
    rateLimitedContact (List.replicate 5 0) 0 ⟨[], [], 0, 0⟩ 0
        (some (.jstr "A")) (some (.jstr "a@b.c")) (some (.jstr "hi")) false =
      (⟨429, contactLimitMsg⟩, ⟨[], [], 0, 0⟩) ∧
    (runTrace [] (List.replicate 11 0) 10).count true ≤ 10 := by
  refine ⟨?_, ?_, ?_⟩
  · exact rate_limit_c9.1 (List.replicate 10 0) 0 ⟨[], [], 0, 0⟩ 0
      (some (.jstr "a@b.c")) false (by decide)
  · exact rate_limit_c9.2.1 (List.replicate 5 0) 0 ⟨[], [], 0, 0⟩ 0
      (some (.jstr "A")) (some (.jstr "a@b.c")) (some (.jstr "hi")) false (by decide)
  · exact (rate_limit_c9.2.2.1 (List.replicate 11 0) 0 (by decide) (by decide)).1

end ClueAnalytics
